import Mathlib

/-!
Verification of the weather-by-CEP HTTP service (main.go).

Strings are modelled as `List Char`.  Outbound HTTP is modelled by an
oracle `net : List Char → Option Response` mapping a request URL to the
transport outcome (`none` = transport error).  Reading and JSON-decoding
a response body are collapsed into an `Option` payload on the response
(`none` = read or decode failure).  Go `float64` values are modelled as
exact rationals.  Each effectful function returns the list of URLs it
requested together with its result, so that claims about which outbound
calls happen are statable.
-/

/-- Go strings.ReplaceAll s (String c) "" : removes every occurrence of
the single character c. -/
def removeAllChar (c : Char) (s : List Char) : List Char :=
  s.filter (fun a => a ≠ c)

/-- Go strings.ReplaceAll s (String c) (String d) for single characters:
replaces every occurrence of c by d. -/
def replaceChar (c d : Char) (s : List Char) : List Char :=
  s.map (fun a => if a = c then d else a)

/-- Model of the Go regexp match against the pattern of eight digits
anchored at both ends (regexp.MatchString in isValidCEP): the string
consists of exactly 8 ASCII digits. -/
def matchDigits8 (s : List Char) : Bool :=
  s.length == 8 && s.all Char.isDigit

/-- isValidCEP from main.go: strips hyphens and spaces, requires length 8,
then requires all characters to be ASCII digits. -/
def isValidCEP (cep : List Char) : Bool :=
  let cep1 := removeAllChar '-' cep
  let cep2 := removeAllChar ' ' cep1
  if cep2.length ≠ 8 then false
  else matchDigits8 cep2

/-- formatCEP from main.go: removes hyphens and spaces. -/
def formatCEP (cep : List Char) : List Char :=
  let cep1 := removeAllChar '-' cep
  removeAllChar ' ' cep1

/-- Claim-side normalization for C1: the string obtained by removing all
hyphen and space characters in one pass. -/
def stripSeps (s : List Char) : List Char :=
  s.filter (fun a => ¬ (a = '-' ∨ a = ' '))

theorem stripSeps_eq_formatCEP (s : List Char) : stripSeps s = formatCEP s := by
  induction s with
  | nil => rfl
  | cons c cs ih =>
    by_cases h1 : c = '-' <;> by_cases h2 : c = ' ' <;>
      simp [stripSeps, formatCEP, removeAllChar, h1, h2, List.filter] at * <;>
      simpa [stripSeps, formatCEP, removeAllChar] using ih

/-- C1. For every input string s, isValidCEP accepts s iff the string
obtained from s by removing all hyphen and space characters consists of
exactly 8 ASCII digits; in particular the listed concrete examples hold. -/
theorem isValidCEP_iff_eight_digits :
    (∀ s : List Char, isValidCEP s = true ↔
      ((stripSeps s).length = 8 ∧ ∀ c ∈ stripSeps s, c.isDigit = true)) ∧
    isValidCEP ("01310-100").data = true ∧
    isValidCEP ("01310 100").data = true ∧
    isValidCEP ("123").data = false ∧
    isValidCEP ("12.345.678").data = false ∧
    isValidCEP ([]) = false := by
  refine ⟨?_, by decide, by decide, by decide, by decide, by decide⟩
  intro s
  rw [stripSeps_eq_formatCEP]
  simp only [isValidCEP, formatCEP, matchDigits8]
  by_cases h : (removeAllChar ' ' (removeAllChar '-' s)).length = 8 <;>
    simp [h, List.all_eq_true]

/-- C7. formatCEP is idempotent. -/
theorem formatCEP_idem (x : List Char) : formatCEP (formatCEP x) = formatCEP x := by
  induction x with
  | nil => rfl
  | cons c cs ih =>
    by_cases h1 : c = '-' <;> by_cases h2 : c = ' ' <;>
      simp [formatCEP, removeAllChar, h1, h2, List.filter] at * <;>
      simpa [formatCEP, removeAllChar] using ih

/-- A JSON value, as decoded by Go encoding/json into an untyped value. -/
inductive JsonVal where
  | null
  | bool (b : Bool)
  | num (q : ℚ)
  | str (s : List Char)
  | arr (elems : List JsonVal)
  | obj (fields : List (List Char × JsonVal))

/-- Truthiness of a JSON value, as used by the claim about the sentinel
field: null, false, 0 and the empty string are falsy. -/
def JsonVal.truthy : JsonVal → Bool
  | .null => false
  | .bool b => b
  | .num q => decide (q ≠ 0)
  | .str s => decide (s ≠ [])
  | .arr _ => true
  | .obj _ => true

/-- CustomError from main.go: an HTTP status code and a message. -/
structure CustomError where
  code : Nat
  message : List Char

/-- CEPData from main.go, the decoded ViaCEP response.  The Erro field is
an untyped interface value: `none` models the nil Go interface (field
absent, or JSON null), `some v` models a present non-null value v. -/
structure CEPData where
  cep : List Char
  logradouro : List Char
  complemento : List Char
  bairro : List Char
  localidade : List Char
  uf : List Char
  ibge : List Char
  gia : List Char
  ddd : List Char
  siafi : List Char
  erro : Option JsonVal

/-- Transport-level outcome of a GET against ViaCEP: an HTTP status code
and the body decoded as CEPData (`none` = body read or JSON decode
failure). -/
structure CEPResponse where
  status : Nat
  body : Option CEPData

def msgInvalidZip : List Char := ("invalid zipcode").data
def msgNotFound : List Char := ("can not find zipcode").data
def msgInternal : List Char := ("internal server error").data

def viaCEPHttpsPre : List Char := ("https://viacep.com.br/ws/").data
def viaCEPHttpPre : List Char := ("http://viacep.com.br/ws/").data
def viaCEPTail : List Char := ("/json/").data

/-- The HTTPS ViaCEP URL built by searchCEP for a formatted CEP. -/
def viaCEPHttpsURL (fcep : List Char) : List Char :=
  viaCEPHttpsPre ++ fcep ++ viaCEPTail

/-- The HTTP fallback ViaCEP URL built by searchCEP for a formatted CEP. -/
def viaCEPHttpURL (fcep : List Char) : List Char :=
  viaCEPHttpPre ++ fcep ++ viaCEPTail

/-- The part of searchCEP from the successful transport call on: status
check, body read / JSON decode, and the Erro sentinel check. -/
def handleViaCEPResp (resp : CEPResponse) : Except CustomError CEPData :=
  if resp.status ≠ 200 then Except.error { code := 500, message := msgInternal }
  else
    match resp.body with
    | none => Except.error { code := 500, message := msgInternal }
    | some d =>
      if d.erro.isSome then Except.error { code := 404, message := msgNotFound }
      else Except.ok d

/-- searchCEP from main.go over a network oracle; returns the list of
URLs requested together with the result. -/
def searchCEP (net : List Char → Option CEPResponse) (cep : List Char) :
    List (List Char) × Except CustomError CEPData :=
  if ! isValidCEP cep then ([], Except.error { code := 422, message := msgInvalidZip })
  else
    let formattedCEP := formatCEP cep
    let url := viaCEPHttpsURL formattedCEP
    match net url with
    | some resp => ([url], handleViaCEPResp resp)
    | none =>
      let httpURL := viaCEPHttpURL formattedCEP
      match net httpURL with
      | none => ([url, httpURL], Except.error { code := 500, message := msgInternal })
      | some resp => ([url, httpURL], handleViaCEPResp resp)

/-- A CEPData value with all address fields empty and no sentinel. -/
def blankCEPData : CEPData :=
  { cep := [], logradouro := [], complemento := [], bairro := [], localidade := [],
    uf := [], ibge := [], gia := [], ddd := [], siafi := [], erro := none }

/-- A parsed ViaCEP body whose sentinel field is present but falsy. -/
def cexData : CEPData := { blankCEPData with erro := some (JsonVal.bool false) }

def cexCEP : List Char := ("01310100").data

/-- A network on which the HTTPS ViaCEP call succeeds with status 200 and
body cexData. -/
def cexNet : List Char → Option CEPResponse := fun u =>
  if u = viaCEPHttpsURL (formatCEP cexCEP) then
    some { status := 200, body := some cexData }
  else none

/-- C3 counterexample: on a parsed body whose sentinel field is present
but falsy (the JSON value false), searchCEP nevertheless reports the
not-found failure 404 "can not find zipcode", contradicting the claim
that a present-but-falsy sentinel does not count as not-found. -/
theorem searchCEP_falsy_sentinel_cex :
    cexData.erro = some (JsonVal.bool false) ∧
    JsonVal.truthy (JsonVal.bool false) = false ∧
    (searchCEP cexNet cexCEP).2 = Except.error { code := 404, message := msgNotFound } :=
  ⟨rfl, rfl, rfl⟩

/-- C3 (amended). When the transport call succeeds with status 200 and a
body that parses to d, searchCEP reports the not-found failure (404,
"can not find zipcode") exactly when the sentinel field of d is present
with a non-null value — regardless of that value's truthiness. -/
theorem searchCEP_notFound_iff_erro_present
    (net : List Char → Option CEPResponse) (cep : List Char) (d : CEPData)
    (hv : isValidCEP cep = true)
    (hnet : net (viaCEPHttpsURL (formatCEP cep)) = some { status := 200, body := some d }) :
    (searchCEP net cep).2 = Except.error { code := 404, message := msgNotFound } ↔
      d.erro.isSome = true := by
  cases h : d.erro with
  | none => simp [searchCEP, hv, hnet, handleViaCEPResp, h]
  | some v => simp [searchCEP, hv, hnet, handleViaCEPResp, h]

theorem searchCEP_notFound_iff_erro_present_witness :
    (searchCEP cexNet cexCEP).2 = Except.error { code := 404, message := msgNotFound } :=
  (searchCEP_notFound_iff_erro_present cexNet cexCEP cexData (by decide) rfl).mpr rfl

/-- C4. For a valid CEP: if the HTTPS transport call fails, exactly the
HTTPS request then one HTTP fallback request are issued, and if the
fallback also fails at the transport level the result is error 500
"internal server error"; if the HTTPS call succeeds at the transport
level (whatever its status), only the HTTPS request is issued. -/
theorem searchCEP_fallback (net : List Char → Option CEPResponse) (cep : List Char)
    (hv : isValidCEP cep = true) :
    (net (viaCEPHttpsURL (formatCEP cep)) = none →
      (searchCEP net cep).1 = [viaCEPHttpsURL (formatCEP cep), viaCEPHttpURL (formatCEP cep)] ∧
      (net (viaCEPHttpURL (formatCEP cep)) = none →
        (searchCEP net cep).2 = Except.error { code := 500, message := msgInternal })) ∧
    (∀ r, net (viaCEPHttpsURL (formatCEP cep)) = some r →
      (searchCEP net cep).1 = [viaCEPHttpsURL (formatCEP cep)]) := by
  refine ⟨fun h1 => ⟨?_, fun h2 => ?_⟩, fun r hr => ?_⟩
  · cases h2 : net (viaCEPHttpURL (formatCEP cep)) <;> simp [searchCEP, hv, h1, h2]
  · simp [searchCEP, hv, h1, h2]
  · simp [searchCEP, hv, hr]

/-- A network on which every transport call fails. -/
def deadNet : List Char → Option CEPResponse := fun _ => none

theorem searchCEP_fallback_witness :
    (searchCEP deadNet cexCEP).1 =
      [viaCEPHttpsURL (formatCEP cexCEP), viaCEPHttpURL (formatCEP cexCEP)] ∧
    (searchCEP deadNet cexCEP).2 = Except.error { code := 500, message := msgInternal } := by
  have h := searchCEP_fallback deadNet cexCEP (by decide)
  exact ⟨(h.1 rfl).1, (h.1 rfl).2 rfl⟩

/-- C10. For every input the validator rejects, searchCEP returns error
422 "invalid zipcode" and issues no outbound request at all. -/
theorem searchCEP_invalid_no_request (net : List Char → Option CEPResponse)
    (cep : List Char) (h : isValidCEP cep = false) :
    searchCEP net cep = ([], Except.error { code := 422, message := msgInvalidZip }) := by
  simp [searchCEP, h]

theorem searchCEP_invalid_no_request_witness :
    searchCEP deadNet (("123").data) =
      ([], Except.error { code := 422, message := msgInvalidZip }) :=
  searchCEP_invalid_no_request deadNet (("123").data) (by decide)

/-- The UTF-8 encoding of a character, as a list of byte values, matching
how a Go string stores it. -/
def utf8Bytes (c : Char) : List Nat :=
  let n := c.toNat
  if n < 128 then [n]
  else if n < 2048 then [192 + n / 64, 128 + n % 64]
  else if n < 65536 then [224 + n / 4096, 128 + (n / 64) % 64, 128 + n % 64]
  else [240 + n / 262144, 128 + (n / 4096) % 64, 128 + (n / 64) % 64, 128 + n % 64]

/-- Upper-case hexadecimal digit, as in Go net/url's upperhex table. -/
def hexUpper (n : Nat) : Char :=
  if n < 10 then Char.ofNat (48 + n) else Char.ofNat (55 + n)

/-- Go net/url shouldEscape for a query component: ASCII alphanumerics
and the marks hyphen, underscore, dot and tilde stay, everything else is
escaped. -/
def shouldEscapeByte (b : Nat) : Bool :=
  !((65 ≤ b && b ≤ 90) || (97 ≤ b && b ≤ 122) || (48 ≤ b && b ≤ 57) ||
    b == 45 || b == 95 || b == 46 || b == 126)

/-- One byte of Go net/url escape in query-component mode: space becomes
a plus sign, escaped bytes become a percent sign and two upper-case hex
digits, the rest pass through. -/
def escapeQueryByte (b : Nat) : List Char :=
  if b == 32 then ['+']
  else if shouldEscapeByte b then ['%', hexUpper (b / 16), hexUpper (b % 16)]
  else [Char.ofNat b]

/-- Go url.QueryEscape: escape every byte of the UTF-8 encoding in
query-component mode. -/
def queryEscape (s : List Char) : List Char :=
  (s.map utf8Bytes).flatten.flatMap escapeQueryByte

/-- One current-condition entry of the wttr.in response: the Celsius
temperature transmitted as a string. -/
structure WttrCondition where
  tempC : List Char

/-- The part of the wttr.in JSON body decoded by getWeatherData. -/
structure WttrResponse where
  currentCondition : List WttrCondition

/-- Transport-level outcome of a GET against wttr.in (`none` body = read
or JSON decode failure). -/
structure WttrHttpResponse where
  status : Nat
  body : Option WttrResponse

/-- WeatherData from main.go, with float64 modelled as an exact
rational. -/
structure WeatherData where
  tempC : ℚ
  tempF : ℚ
  tempK : ℚ

def msgWeatherNA : List Char := ("weather data not available").data
def wttrPre : List Char := ("https://wttr.in/").data
def wttrFormatTail : List Char := ("?format=j1").data
def commaChr : List Char := (",").data
def brazilTail : List Char := (",Brazil").data

/-- The location string built by getWeatherData: city and state with
spaces replaced by plus signs, joined with commas, ending in Brazil. -/
def wttrLocation (city state : List Char) : List Char :=
  replaceChar ' ' '+' city ++ commaChr ++ replaceChar ' ' '+' state ++ brazilTail

/-- The wttr.in URL built by getWeatherData. -/
def wttrURL (city state : List Char) : List Char :=
  wttrPre ++ queryEscape (wttrLocation city state) ++ wttrFormatTail

/-- The part of getWeatherData from the successful transport call on:
status check, body decode, empty-conditions check, temperature parse
(pf models strconv.ParseFloat) and the unit conversions. -/
def handleWttrResp (pf : List Char → Option ℚ) (resp : WttrHttpResponse) :
    Except CustomError WeatherData :=
  if resp.status ≠ 200 then Except.error { code := 500, message := msgInternal }
  else
    match resp.body with
    | none => Except.error { code := 500, message := msgInternal }
    | some wr =>
      match wr.currentCondition with
      | [] => Except.error { code := 500, message := msgWeatherNA }
      | c0 :: _ =>
        match pf c0.tempC with
        | none => Except.error { code := 500, message := msgInternal }
        | some tempC =>
          Except.ok { tempC := tempC, tempF := tempC * 9 / 5 + 32, tempK := tempC + 273.15 }

/-- getWeatherData from main.go over a parse oracle pf (modelling
strconv.ParseFloat) and a network oracle; returns the requested URLs
together with the result. -/
def getWeatherData (pf : List Char → Option ℚ)
    (net : List Char → Option WttrHttpResponse) (city state : List Char) :
    List (List Char) × Except CustomError WeatherData :=
  let url := wttrURL city state
  match net url with
  | none => ([url], Except.error { code := 500, message := msgInternal })
  | some resp => ([url], handleWttrResp pf resp)

/-- C2. Whenever the weather response parses with a first
current-condition entry whose Celsius string parses to C, getWeatherData
returns exactly the record with Celsius C, Fahrenheit C*9/5+32 and
Kelvin C+273.15, with no rounding applied. -/
theorem getWeatherData_formulas (pf : List Char → Option ℚ)
    (net : List Char → Option WttrHttpResponse) (city state : List Char)
    (wr : WttrResponse) (c0 : WttrCondition) (rest : List WttrCondition) (C : ℚ)
    (hnet : net (wttrURL city state) = some { status := 200, body := some wr })
    (hcc : wr.currentCondition = c0 :: rest)
    (hpf : pf c0.tempC = some C) :
    (getWeatherData pf net city state).2 =
      Except.ok { tempC := C, tempF := C * 9 / 5 + 32, tempK := C + 273.15 } := by
  simp [getWeatherData, handleWttrResp, hnet, hcc, hpf]

def spCity : List Char := ("Sao Paulo").data
def spUF : List Char := ("SP").data
def wttrCond25 : WttrCondition := { tempC := ("25").data }
def wttrResp25 : WttrHttpResponse :=
  { status := 200, body := some { currentCondition := [wttrCond25] } }

/-- A parse oracle that parses the string 25 to the rational 25. -/
def pf25 : List Char → Option ℚ := fun s => if s = ("25").data then some 25 else none

/-- A weather network answering the built URL with status 200 and one
current condition of 25 degrees Celsius. -/
def netW25 : List Char → Option WttrHttpResponse := fun u =>
  if u = wttrURL spCity spUF then some wttrResp25 else none

theorem getWeatherData_formulas_witness :
    (getWeatherData pf25 netW25 spCity spUF).2 =
      Except.ok { tempC := 25, tempF := 77, tempK := 298.15 } := by
  have h := getWeatherData_formulas pf25 netW25 spCity spUF
    { currentCondition := [wttrCond25] } wttrCond25 [] 25 rfl rfl rfl
  rw [h]
  norm_num

/-- C6. When the weather response parses with an empty current-condition
list, getWeatherData returns error 500 with the distinct message
"weather data not available", and no record. -/
theorem getWeatherData_empty_conditions (pf : List Char → Option ℚ)
    (net : List Char → Option WttrHttpResponse) (city state : List Char)
    (hnet : net (wttrURL city state) =
      some { status := 200, body := some { currentCondition := [] } }) :
    (getWeatherData pf net city state).2 =
      Except.error { code := 500, message := msgWeatherNA } ∧
    msgWeatherNA ≠ msgInternal := by
  refine ⟨by simp [getWeatherData, handleWttrResp, hnet], by decide⟩

/-- A weather network answering the built URL with status 200 and an
empty current-condition list. -/
def netWEmpty : List Char → Option WttrHttpResponse := fun u =>
  if u = wttrURL spCity spUF then some { status := 200, body := some { currentCondition := [] } }
  else none

theorem getWeatherData_empty_conditions_witness :
    (getWeatherData pf25 netWEmpty spCity spUF).2 =
      Except.error { code := 500, message := msgWeatherNA } :=
  (getWeatherData_empty_conditions pf25 netWEmpty spCity spUF rfl).1

/-- C9. For every city and state, the single URL getWeatherData requests
is the wttr.in base followed by the percent-encoding of the string
city-with-spaces-as-plus, comma, state-with-spaces-as-plus, comma
Brazil, followed by the j1 format query. -/
theorem getWeatherData_url (pf : List Char → Option ℚ)
    (net : List Char → Option WttrHttpResponse) (city state : List Char) :
    (getWeatherData pf net city state).1 =
      [wttrPre ++
        queryEscape (replaceChar ' ' '+' city ++ commaChr ++
          replaceChar ' ' '+' state ++ brazilTail) ++
        wttrFormatTail] := by
  cases h : net (wttrURL city state) <;> simp only [getWeatherData, h] <;> rfl

def methodGET : List Char := ("GET").data
def routePre : List Char := ("/weatherbycep/").data
def msgMethodNA : List Char := ("method not allowed").data
def msgEndpointNF : List Char := ("endpoint not found").data
def msgCEPRequired : List Char := ("cep parameter is required").data
def appJson : List Char := ("application/json").data

/-- An inbound HTTP request, as consumed by the handler: method and URL
path. -/
structure Request where
  method : List Char
  path : List Char

/-- The JSON object written as a response body: either the single-field
message object of ErrorResponse or the encoded WeatherData record. -/
inductive RespBody where
  | errObj (message : List Char)
  | weatherObj (w : WeatherData)

/-- The observable state of the ResponseWriter after the handler ran:
header, status and body, each `none` until written. -/
structure HandlerResponse where
  contentType : Option (List Char)
  status : Option Nat
  body : Option RespBody

/-- The write sequence every error branch of the handler performs: set
the JSON content type, write the status code, encode the message
object. -/
def errJson (code : Nat) (message : List Char) : HandlerResponse :=
  { contentType := some appJson, status := some code,
    body := some (RespBody.errObj message) }

/-- Go strings.TrimPrefix: drop the prefix when present, else return the
string unchanged. -/
def trimPfx (p s : List Char) : List Char :=
  if p.isPrefixOf s then s.drop p.length else s

/-- weatherByCEPHandler from main.go over the two network oracles and
the ParseFloat oracle; returns the requested URLs together with the
final response state. -/
def weatherByCEPHandler (pfl : List Char → Option ℚ)
    (netC : List Char → Option CEPResponse)
    (netW : List Char → Option WttrHttpResponse)
    (r : Request) : List (List Char) × HandlerResponse :=
  if r.method ≠ methodGET then ([], errJson 405 msgMethodNA)
  else if ! (routePre.isPrefixOf r.path) then ([], errJson 404 msgEndpointNF)
  else
    let cep := trimPfx routePre r.path
    if cep = [] then ([], errJson 400 msgCEPRequired)
    else
      match searchCEP netC cep with
      | (log1, Except.error e) => (log1, errJson e.code e.message)
      | (log1, Except.ok cepData) =>
        match getWeatherData pfl netW cepData.localidade cepData.uf with
        | (log2, Except.error e) => (log1 ++ log2, errJson e.code e.message)
        | (log2, Except.ok w) =>
          (log1 ++ log2,
            { contentType := some appJson, status := some 200,
              body := some (RespBody.weatherObj w) })

/-- C5. Every non-GET request, whatever its path and whatever the
networks would answer, gets status 405 with the method-not-allowed
message object, and no outbound request is issued. -/
theorem handler_non_get (pfl : List Char → Option ℚ)
    (netC : List Char → Option CEPResponse)
    (netW : List Char → Option WttrHttpResponse)
    (r : Request) (h : r.method ≠ methodGET) :
    weatherByCEPHandler pfl netC netW r =
      ([], { contentType := some appJson, status := some 405,
             body := some (RespBody.errObj msgMethodNA) }) := by
  simp [weatherByCEPHandler, h, errJson]

def postReq : Request :=
  { method := ("POST").data, path := ("/weatherbycep/01310100").data }

theorem handler_non_get_witness :
    weatherByCEPHandler pf25 cexNet netW25 postReq =
      ([], { contentType := some appJson, status := some 405,
             body := some (RespBody.errObj msgMethodNA) }) :=
  handler_non_get pf25 cexNet netW25 postReq (by decide)

theorem handleViaCEPResp_err_code (resp : CEPResponse) (e : CustomError)
    (h : handleViaCEPResp resp = Except.error e) : e.code = 404 ∨ e.code = 500 := by
  unfold handleViaCEPResp at h
  split at h
  · injection h with h2; rw [← h2]; exact Or.inr rfl
  · split at h
    · injection h with h2; rw [← h2]; exact Or.inr rfl
    · split at h
      · injection h with h2; rw [← h2]; exact Or.inl rfl
      · exact Except.noConfusion h

theorem searchCEP_err_code (net : List Char → Option CEPResponse) (cep : List Char)
    (e : CustomError) (h : (searchCEP net cep).2 = Except.error e) :
    e.code = 422 ∨ e.code = 404 ∨ e.code = 500 := by
  simp only [searchCEP] at h
  split at h
  · injection h with h2; rw [← h2]; exact Or.inl rfl
  · split at h
    · exact Or.inr (handleViaCEPResp_err_code _ e h)
    · split at h
      · injection h with h2; rw [← h2]; exact Or.inr (Or.inr rfl)
      · exact Or.inr (handleViaCEPResp_err_code _ e h)

theorem handleWttrResp_err_code (pfl : List Char → Option ℚ) (resp : WttrHttpResponse)
    (e : CustomError) (h : handleWttrResp pfl resp = Except.error e) : e.code = 500 := by
  unfold handleWttrResp at h
  split at h
  · injection h with h2; rw [← h2]
  · split at h
    · injection h with h2; rw [← h2]
    · split at h
      · injection h with h2; rw [← h2]
      · split at h
        · injection h with h2; rw [← h2]
        · exact Except.noConfusion h

theorem getWeatherData_err_code (pfl : List Char → Option ℚ)
    (netW : List Char → Option WttrHttpResponse) (city state : List Char)
    (e : CustomError) (h : (getWeatherData pfl netW city state).2 = Except.error e) :
    e.code = 500 := by
  simp only [getWeatherData] at h
  split at h
  · injection h with h2; rw [← h2]
  · exact handleWttrResp_err_code pfl _ e h

/-- C8. On every outcome of the handler the response has the JSON
content type set and a JSON-object body: the WeatherData record with
status 200 on success, or a single-field message object with one of the
failure statuses 400, 404, 405, 422, 500. -/
theorem handler_always_json (pfl : List Char → Option ℚ)
    (netC : List Char → Option CEPResponse)
    (netW : List Char → Option WttrHttpResponse) (r : Request) :
    (weatherByCEPHandler pfl netC netW r).2.contentType = some appJson ∧
    ((∃ w, (weatherByCEPHandler pfl netC netW r).2.body = some (RespBody.weatherObj w) ∧
        (weatherByCEPHandler pfl netC netW r).2.status = some 200) ∨
      (∃ m c, (weatherByCEPHandler pfl netC netW r).2.body = some (RespBody.errObj m) ∧
        (weatherByCEPHandler pfl netC netW r).2.status = some c ∧
        (c = 400 ∨ c = 404 ∨ c = 405 ∨ c = 422 ∨ c = 500))) := by
  simp only [weatherByCEPHandler]
  split
  · exact ⟨rfl, Or.inr ⟨msgMethodNA, 405, rfl, rfl, by tauto⟩⟩
  · split
    · exact ⟨rfl, Or.inr ⟨msgEndpointNF, 404, rfl, rfl, by tauto⟩⟩
    · split
      · exact ⟨rfl, Or.inr ⟨msgCEPRequired, 400, rfl, rfl, by tauto⟩⟩
      · split
        · next log1 e heq =>
          have hc : e.code = 422 ∨ e.code = 404 ∨ e.code = 500 :=
            searchCEP_err_code netC _ e (by rw [heq])
          exact ⟨rfl, Or.inr ⟨e.message, e.code, rfl, rfl, by tauto⟩⟩
        · next log1 cepData heq =>
          split
          · next log2 e heq2 =>
            have hc : e.code = 500 :=
              getWeatherData_err_code pfl netW cepData.localidade cepData.uf e (by rw [heq2])
            exact ⟨rfl, Or.inr ⟨e.message, e.code, rfl, rfl, by tauto⟩⟩
          · next log2 w heq2 =>
            exact ⟨rfl, Or.inl ⟨w, rfl, rfl⟩⟩
